import Mathlib

/-! # Mashery Vault secrets plugin: credential records and lease lifecycle

A shallow embedding of the Go package `mashery`
(`data_structs.go`, `path_credentials.go`, `path_v2auth.go`, `path_v3auth.go`, `plugin.go`).

Conventions of the embedding.

* Go `int`, `int64` and `time.Duration` are 64-bit two's complement integers. They are
  embedded as `Int`, and every arithmetic operation that can leave the 64-bit range is
  wrapped with `wrap64`.
* A Go handler returns `(*logical.Response, error)`; it is embedded as `Outcome`, which
  also records a run-time panic (nil dereference, failed type assertion).
* `interface{}` values of `Secret.InternalData` are embedded as `Value`.
* The storage backend, the upstream OAuth helper and the clock are collaborators that are
  passed in explicitly. Logging has no effect on results and is dropped, except that the
  arguments of a log call are still evaluated (they can panic).
-/

namespace mashery

/-! ## Machine integers and durations -/

/-- Two's complement wrap-around of a mathematical integer into the signed 64-bit range. -/
def wrap64 (x : Int) : Int := (x + 9223372036854775808) % 18446744073709551616 - 9223372036854775808

/-- Membership in the signed 64-bit range. -/
def isInt64 (x : Int) : Prop := -9223372036854775808 ≤ x ∧ x ≤ 9223372036854775807

instance (x : Int) : Decidable (isInt64 x) := by unfold isInt64; infer_instance

/-- Nanoseconds in `time.Second`. -/
def Second : Int := 1000000000

/-- Nanoseconds in `time.Minute`. -/
def Minute : Int := 60 * Second

/-- Nanoseconds in `time.Hour`. -/
def Hour : Int := 60 * Minute

/-- Product of two `time.Duration` values (`int64` multiplication). -/
def durMul (x y : Int) : Int := wrap64 (x * y)

/-! ## Errors, dynamic values, outcomes -/

/-- Go `error` values produced by the package (never the nil error). `wrapped` and
`wrappedNil` are the `*wrappedError` values that `errwrap.Wrapf` builds around an inner error
and around a nil inner error. -/
inductive GoError where
  | new (msg : String)
  | wrapped (format : String) (inner : GoError)
  | wrappedNil (format : String)
  deriving Repr, DecidableEq

/-- The function `errors.New`. -/
def errorsNew (msg : String) : GoError := GoError.new msg

/-- The function `errwrap.Wrapf(format, err)` of `github.com/hashicorp/errwrap`:
it builds the outer message from `format` (with the text `<nil>` standing for a nil `err`)
and returns `&wrappedError{Outer, Inner}`. The returned error is never nil, also when `err` is. -/
def Wrapf (format : String) (err : Option GoError) : GoError :=
  match err with
  | some inner => GoError.wrapped format inner
  | none => GoError.wrappedNil format

/-- Dynamic values held in `Secret.InternalData` (`map[string]interface{}`).
`absent` is the nil interface obtained for a missing key. `float64 n` is a JSON number as the
host hands it back after a round trip; `n` is the result of Go's conversion `int64(·)` of it. -/
inductive Value where
  | absent
  | string (s : String)
  | int (n : Int)
  | int64 (n : Int)
  | float64 (n : Int)
  | other
  deriving Repr, DecidableEq

/-! ## Data structures (`data_structs.go`) -/

/-- The struct `AuthRec`. -/
structure AuthRec where
  AreaId : String
  AreaNid : Int
  ApiKey : String
  KeySecret : String
  Username : String
  Password : String
  MaxQPS : Int
  LeaseDuration : Int
  deriving Repr, DecidableEq

/-- The zero value `AuthRec{}`. -/
def AuthRec.zero : AuthRec :=
  { AreaId := "", AreaNid := 0, ApiKey := "", KeySecret := "", Username := "", Password := "",
    MaxQPS := 0, LeaseDuration := 0 }

/-- The struct `v3client.MasheryV3Credentials`. -/
structure MasheryV3Credentials where
  AreaId : String
  ApiKey : String
  Secret : String
  Username : String
  Password : String
  deriving Repr, DecidableEq

/-- The method `AuthRec.asV3Credentials`. -/
def AuthRec.asV3Credentials (ar : AuthRec) : MasheryV3Credentials :=
  { AreaId := ar.AreaId, ApiKey := ar.ApiKey, Secret := ar.KeySecret,
    Username := ar.Username, Password := ar.Password }

/-- The struct `v3client.TimedAccessTokenResponse`, with the fields the package reads. -/
structure TimedAccessTokenResponse where
  AccessToken : String
  RefreshToken : String
  ExpiresIn : Int
  deriving Repr, DecidableEq

/-- Go's `len` of a string: its length in bytes. -/
def len (s : String) : Nat := s.utf8ByteSize

/-! ## Collaborators: storage, request data, upstream helper, clock -/

/-- Bytes held by a `logical.StorageEntry`: either the JSON that `logical.StorageEntryJSON`
writes for a record (which `DecodeJSON` reads back into the same record), or bytes that
`DecodeJSON` rejects. -/
inductive EntryValue where
  | json (rec : AuthRec)
  | malformed
  deriving Repr, DecidableEq

/-- The struct `logical.StorageEntry`. -/
structure StorageEntry where
  Key : String
  Value : EntryValue
  deriving Repr, DecidableEq

/-- The function `logical.StorageEntryJSON`; encoding a struct of strings and integers
does not fail. -/
def StorageEntryJSON (k : String) (v : AuthRec) : StorageEntry × Option GoError :=
  ({ Key := k, Value := EntryValue.json v }, none)

/-- The method `StorageEntry.DecodeJSON` into a fresh `AuthRec{}`. -/
def StorageEntry.DecodeJSON (e : StorageEntry) : Except GoError AuthRec :=
  match e.Value with
  | EntryValue.json rec => Except.ok rec
  | EntryValue.malformed => Except.error (errorsNew "invalid character in stored value")

/-- The storage backend `logical.Storage`: its durable content, and for every operation and
path the I/O error (if any) the backend answers with. -/
structure Storage where
  entries : String → Option StorageEntry
  getErr : String → Option GoError
  putErr : String → Option GoError
  deleteErr : String → Option GoError

/-- The method `Storage.Get`. -/
def Storage.Get (s : Storage) (path : String) : Option StorageEntry × Option GoError :=
  match s.getErr path with
  | some e => (none, some e)
  | none => (s.entries path, none)

/-- The method `Storage.Put`: on success the entry replaces what was stored under its key. -/
def Storage.Put (s : Storage) (e : StorageEntry) : Storage × Option GoError :=
  match s.putErr e.Key with
  | some err => (s, some err)
  | none => ({ s with entries := fun p => if p = e.Key then some e else s.entries p }, none)

/-- The method `Storage.Delete`: on success nothing is stored under the path any more;
deleting a path with no entry succeeds as well. -/
def Storage.Delete (s : Storage) (path : String) : Storage × Option GoError :=
  match s.deleteErr path with
  | some err => (s, some err)
  | none => ({ s with entries := fun p => if p = path then none else s.entries p }, none)

/-- Lookup in a Go map `map[string]interface{}`, kept as an association list; a missing key
yields the nil interface. -/
def mapGet : List (String × Value) → String → Value
  | [], _ => Value.absent
  | (k, v) :: rest, key => if k = key then v else mapGet rest key

/-- The struct `logical.Secret` (with its embedded `LeaseOptions`). `InternalData` may be a
nil map. -/
structure Secret where
  TTL : Int
  MaxTTL : Int
  Renewable : Bool
  InternalData : Option (List (String × Value))
  deriving Repr, DecidableEq

/-- The struct `logical.Response`. -/
structure Response where
  Secret : Option Secret
  Data : List (String × Value)
  deriving Repr, DecidableEq

/-- What a handler hands back: the pair `(*logical.Response, error)`, or a run-time panic. -/
inductive Outcome where
  | ret (resp : Option Response) (err : Option GoError)
  | panic
  deriving Repr, DecidableEq

/-- The struct `logical.Request`, with the fields the package reads. -/
structure Request where
  Storage : Storage
  Secret : Option Secret

/-- The request fields as `framework.FieldData` exposes them: `masheryCredentialsName` is
what `Get` returns for the area name, every other field is what `GetOk` returns (`none`
when the request does not carry the field). -/
structure FieldData where
  masheryCredentialsName : String
  area_id : Option String
  area_nid : Option Int
  api_key : Option String
  secret : Option String
  username : Option String
  password : Option String
  qps : Option Int
  lease_duration : Option Int
  deriving Repr, DecidableEq

/-- The upstream exchange `v3client.V3OAuthHelper`, as the answers it gives. -/
structure V3OAuthHelper where
  RetrieveAccessTokenFor : MasheryV3Credentials → Except GoError TimedAccessTokenResponse
  ExchangeRefreshToken : MasheryV3Credentials → String → Except GoError TimedAccessTokenResponse

/-- A call made to the upstream exchange. -/
inductive UpstreamCall where
  | RetrieveAccessTokenFor (c : MasheryV3Credentials)
  | ExchangeRefreshToken (c : MasheryV3Credentials) (refreshToken : String)
  deriving Repr, DecidableEq

/-- The struct `AuthPlugin` (`plugin.go`). -/
structure AuthPlugin where
  v3OauthHelper : V3OAuthHelper

/-- A reading of the clock (`time.Time`): Unix seconds and the nanoseconds within the second. -/
structure Time where
  sec : Int
  nsec : Int
  deriving Repr, DecidableEq

/-- The method `Time.Add`. -/
def Time.Add (t : Time) (d : Int) : Time :=
  let total := t.sec * 1000000000 + t.nsec + d
  { sec := total / 1000000000, nsec := total % 1000000000 }

/-- The method `Time.Unix`. -/
def Time.Unix (t : Time) : Int := t.sec

/-! ## Constants (`data_structs.go`, `path_v2auth.go`, `path_v3auth.go`) -/

def secretAreaIdField : String := "area_id"
def secretAreaNidField : String := "area_nid"
def secretApiKeField : String := "api_key"
def secretKeySecretField : String := "secret"
def secretSignedSecretField : String := "sig"
def secretUsernameField : String := "username"
def secretPasswordField : String := "password"
def secretQpsField : String := "qps"
def secretLeaseDurationField : String := "lease_duration"
def secretAccessToken : String := "access_token"
def secretInternalSiteStoragePath : String := "siteStoragePath"
def secretInternalRefreshToken : String := "refresh_token"
def secretInternalTokenExpiryTime : String := "token_expiry_time"
def secretMasheryV2Access : String := "v2_access"
def secretMasheryV3Access : String := "v3_access"

/-- The method `framework.Secret.Response`: the response of a registered secret type, with
the default lease duration of that type and the type recorded in the internal data. -/
def secretResponse (secretType : String) (defaultDuration : Int) (renewable : Bool)
    (data internal : List (String × Value)) : Response :=
  { Secret := some { TTL := defaultDuration, MaxTTL := 0, Renewable := renewable,
                     InternalData := some (internal ++ [("secret_type", Value.string secretType)]) },
    Data := data }

/-! ## Credential record store (`path_credentials.go`) -/

/-- The function `storagePathForMasheryArea`. -/
def storagePathForMasheryArea (data : FieldData) : String :=
  let siteName := data.masheryCredentialsName
  "area/" ++ siteName

/-- The method `siteExistenceCheck`. -/
def siteExistenceCheck (req : Request) (data : FieldData) : Bool × Option GoError :=
  match req.Storage.Get (storagePathForMasheryArea data) with
  | (_, some err) => (false, some (Wrapf "existence check failed: \x7b\x7berr\x7d\x7d" (some err)))
  | (out, none) => (out.isSome, none)

/-- The function `mergeSiteFieldsInto`, for a non-nil `retVal`. -/
def mergeSiteFieldsInto (data : FieldData) (retVal : AuthRec) : AuthRec :=
  let retVal := match data.area_id with
    | some areaIdRaw => { retVal with AreaId := areaIdRaw }
    | none => retVal
  let retVal := match data.area_nid with
    | some areaNidRaw => { retVal with AreaNid := areaNidRaw }
    | none => retVal
  let retVal := match data.api_key with
    | some apiKeyRaw => { retVal with ApiKey := apiKeyRaw }
    | none => retVal
  let retVal := match data.secret with
    | some keySecretRaw => { retVal with KeySecret := keySecretRaw }
    | none => retVal
  let retVal := match data.username with
    | some usernameRaw => { retVal with Username := usernameRaw }
    | none => retVal
  let retVal := match data.password with
    | some passwordRaw => { retVal with Password := passwordRaw }
    | none => retVal
  let retVal := match data.qps with
    | some secretQpsRaw => { retVal with MaxQPS := secretQpsRaw }
    | none => { retVal with MaxQPS := 2 }
  match data.lease_duration with
  | some durationRaw =>
    let retVal := { retVal with LeaseDuration := durationRaw }
    if retVal.LeaseDuration = 0 then { retVal with LeaseDuration := 15 * 60 } else retVal
  | none => retVal

/-- The function `toV3AuthRec`. -/
def toV3AuthRec (data : FieldData) : AuthRec :=
  let retVal := mergeSiteFieldsInto data AuthRec.zero
  if retVal.LeaseDuration = 0 then { retVal with LeaseDuration := 15 * 60 } else retVal

/-- The function `persistAuthRecord`; the second component is the storage afterwards. -/
def persistAuthRecord (req : Request) (data : FieldData) (v3Rec : AuthRec) : Outcome × Storage :=
  match StorageEntryJSON (storagePathForMasheryArea data) v3Rec with
  | (_, some err) =>
    (Outcome.ret none (some (Wrapf "failed to save site data: \x7b\x7berr\x7d\x7d" (some err))),
      req.Storage)
  | (se, none) =>
    let (st, err) := req.Storage.Put se
    (Outcome.ret none err, st)

/-- The method `handleWriteAreaData`. -/
def handleWriteAreaData (req : Request) (data : FieldData) : Outcome × Storage :=
  persistAuthRecord req data (toV3AuthRec data)

/-- The function `getAuthRecord`: the pair `(*AuthRec, error)`. -/
def getAuthRecord (req : Request) (data : FieldData) : Option AuthRec × Option GoError :=
  match req.Storage.Get (storagePathForMasheryArea data) with
  | (_, some err) => (none, some err)
  | (none, none) => (none, none)
  | (some entry, none) =>
    match entry.DecodeJSON with
    | Except.error err =>
      (none, some (Wrapf
        "cannot unmarshal V3 authorization data structure (\x7b\x7berr\x7d\x7d)" (some err)))
    | Except.ok v3Rec => (some v3Rec, none)

/-- The method `handleUpdateAreaData`. When no record is stored, `getAuthRecord` returns a
nil record with a nil error and `mergeSiteFieldsInto` writes through the nil pointer. -/
def handleUpdateAreaData (req : Request) (data : FieldData) : Outcome × Storage :=
  match getAuthRecord req data with
  | (_, some err) => (Outcome.ret none (some err), req.Storage)
  | (none, none) => (Outcome.panic, req.Storage)
  | (some v3Rec, none) => persistAuthRecord req data (mergeSiteFieldsInto data v3Rec)

/-- The method `handleDeleteAreaData`. -/
def handleDeleteAreaData (req : Request) (data : FieldData) : Outcome × Storage :=
  let (st, err) := req.Storage.Delete (storagePathForMasheryArea data)
  (Outcome.ret none (some (Wrapf "failed to delete site data: \x7b\x7berr\x7d\x7d" err)), st)

/-! ## V2 signature (`path_v2auth.go`) -/

/-- The function `suppliesKeyAndSecret`. -/
def suppliesKeyAndSecret (v3Rec : AuthRec) : Bool :=
  decide (len v3Rec.ApiKey > 0) && decide (len v3Rec.KeySecret > 0)

/-- The digit table `hextable` of `encoding/hex`. -/
def hextable : String := "0123456789abcdef"

/-- The digit `hextable[n]` for a nibble `n`. -/
def hexDigit (n : Nat) : Char := hextable.data.getD n '0'

/-- The function `hex.EncodeToString`: two digits per byte, high nibble first. -/
def hexEncodeToString (src : List UInt8) : String :=
  String.mk (src.flatMap fun v => [hexDigit (v.toNat / 16), hexDigit (v.toNat % 16)])

/-- The bytes `[]byte(s)` of a string. -/
def stringBytes (s : String) : List UInt8 := s.toUTF8.data.toList

/-- The method `pathReadV2Credentials`. `md5Sum` is the digest of `crypto/md5`
(`hash.Write` of the bytes followed by `hash.Sum(nil)`). A missing entry makes
`entry.DecodeJSON` dereference a nil entry. -/
def pathReadV2Credentials (md5Sum : List UInt8 → List UInt8) (now : Time) (req : Request)
    (d : FieldData) : Outcome :=
  match req.Storage.Get (storagePathForMasheryArea d) with
  | (_, some err) =>
    Outcome.ret none (some (Wrapf "cannot read site credentials: \x7b\x7berr\x7d" (some err)))
  | (none, none) => Outcome.panic
  | (some entry, none) =>
    match entry.DecodeJSON with
    | Except.error err =>
      Outcome.ret none (some (Wrapf
        "cannot unmarshal V3 authorization data structure (\x7b\x7berr\x7d\x7d)" (some err)))
    | Except.ok v3Rec =>
      if v3Rec.AreaNid = 0 || !suppliesKeyAndSecret v3Rec then
        Outcome.ret none (some (errorsNew "insufficient data to generate V2 signature"))
      else
        let now := now.Unix
        let hash := md5Sum (stringBytes (v3Rec.ApiKey ++ v3Rec.KeySecret ++ toString now))
        let resp := secretResponse secretMasheryV2Access Minute false
          [(secretAreaNidField, Value.int v3Rec.AreaNid),
           (secretQpsField, Value.int v3Rec.MaxQPS),
           (secretApiKeField, Value.string v3Rec.ApiKey),
           (secretSignedSecretField, Value.string (hexEncodeToString hash))]
          []
        Outcome.ret (some resp) none

/-- The method `noopRenewRevoke` (`plugin.go`). -/
def noopRenewRevoke : Outcome := Outcome.ret none none

/-! ## V3 access token lease (`path_v3auth.go`) -/

/-- The function `sufficientForV3`. -/
def sufficientForV3 (v3Rec : AuthRec) : Bool :=
  decide (len v3Rec.AreaId > 0) &&
    suppliesKeyAndSecret v3Rec &&
    decide (len v3Rec.Username > 0) && decide (len v3Rec.Password > 0)

/-- The function `min` on `int`. -/
def min (x y : Int) : Int :=
  if x > y then y else x

/-- The function `max` on `time.Duration`. -/
def max (x y : Int) : Int :=
  if x > y then x else y

/-- The method `createSecretResponse`. `now` is the reading of `time.Now()`. -/
def createSecretResponse (now : Time) (tkn : TimedAccessTokenResponse) (v3Rec : AuthRec)
    (d : FieldData) : Response :=
  let exp := now.Add (durMul Second tkn.ExpiresIn)
  let response := secretResponse secretMasheryV3Access (durMul Minute 15) true
    [(secretAccessToken, Value.string tkn.AccessToken),
     (secretQpsField, Value.int v3Rec.MaxQPS)]
    [(secretInternalSiteStoragePath, Value.string (storagePathForMasheryArea d)),
     (secretInternalRefreshToken, Value.string tkn.RefreshToken),
     (secretInternalTokenExpiryTime, Value.int64 exp.Unix)]
  let usableTokenTime := mashery.min v3Rec.LeaseDuration tkn.ExpiresIn
  { response with
    Secret := response.Secret.map fun s =>
      { s with
        TTL := durMul Second usableTokenTime,
        MaxTTL := mashery.max (durMul Hour 1) (durMul Second usableTokenTime) } }

/-- The method `pathReadV3Credentials`; the second component lists the calls made to the
upstream exchange. -/
def pathReadV3Credentials (b : AuthPlugin) (now : Time) (req : Request) (d : FieldData) :
    Outcome × List UpstreamCall :=
  match getAuthRecord req d with
  | (_, some err) =>
    (Outcome.ret none (some (Wrapf "cannot read site credentials: \x7b\x7berr\x7d" (some err))), [])
  | (none, none) =>
    (Outcome.ret none (some (errorsNew "nil authorization data structure returned")), [])
  | (some v3Rec, none) =>
    if !sufficientForV3 v3Rec then
      (Outcome.ret none (some (errorsNew "site data is not sufficient to request v3 access token")),
        [])
    else
      let v3Credentials := v3Rec.asV3Credentials
      match b.v3OauthHelper.RetrieveAccessTokenFor v3Credentials with
      | Except.error err =>
        (Outcome.ret none (some (Wrapf "access token was not granted: \x7b\x7berr\x7d" (some err))),
          [UpstreamCall.RetrieveAccessTokenFor v3Credentials])
      | Except.ok tkn =>
        (Outcome.ret (some (createSecretResponse now tkn v3Rec d)) none,
          [UpstreamCall.RetrieveAccessTokenFor v3Credentials])

/-- What `getAuthRecordOfSecret` hands back: the pair `(*AuthRec, error)`, or a panic. -/
inductive FetchResult where
  | ret (rec : Option AuthRec) (err : Option GoError)
  | panic
  deriving Repr, DecidableEq

/-- Lookup `req.Secret.InternalData[key]`; indexing a nil map yields the nil interface. -/
def internalGet (internal : Option (List (String × Value))) (key : String) : Value :=
  match internal with
  | none => Value.absent
  | some m => mapGet m key

/-- The method `getAuthRecordOfSecret`. The log call evaluates
`reflect.TypeOf(storagePathRaw).String()`, which panics on a nil interface. -/
def getAuthRecordOfSecret (req : Request) : FetchResult :=
  match req.Secret with
  | none => FetchResult.ret none (some (errorsNew "request does not bear secret"))
  | some secret =>
    match secret.InternalData with
    | none => FetchResult.ret none (some (errorsNew "request does not bear secret"))
    | some internal =>
      match mapGet internal secretInternalSiteStoragePath with
      | Value.absent => FetchResult.panic
      | Value.string storagePath =>
        match req.Storage.Get storagePath with
        | (_, some err) => FetchResult.ret none (some err)
        | (none, none) => FetchResult.ret none none
        | (some entry, none) =>
          match entry.DecodeJSON with
          | Except.error err =>
            FetchResult.ret none (some (Wrapf
              "cannot unmarshal V3 authorization data structure (\x7b\x7berr\x7d\x7d)" (some err)))
          | Except.ok v3Rec => FetchResult.ret (some v3Rec) none
      | _ => FetchResult.ret none (some (errorsNew "cannot read storage path out of internal data"))

/-- The method `extendV3AccessTokenLease`. `now` is the reading of `time.Now()`. The fetch
error is only logged. `req.Secret.InternalData` dereferences `req.Secret`, and the log call
evaluates `reflect.TypeOf(expRaw).String()`, which panics on a nil interface. -/
def extendV3AccessTokenLease (now : Time) (req : Request) : Outcome :=
  match getAuthRecordOfSecret req with
  | FetchResult.panic => Outcome.panic
  | FetchResult.ret v3Rec _ =>
    match req.Secret with
    | none => Outcome.panic
    | some secret =>
      let expRaw := internalGet secret.InternalData secretInternalTokenExpiryTime
      if expRaw = Value.absent then Outcome.panic
      else
        let remainingTokenTime : Int :=
          match expRaw with
          | Value.float64 expConv => wrap64 (expConv - now.Unix)
          | _ => 0
        if remainingTokenTime ≤ 0 then
          Outcome.ret none (some (errorsNew "lease cannot be renews as token has expired"))
        else if remainingTokenTime ≤ 15 then
          Outcome.ret none (some (errorsNew "lease almost expired, request new one instead"))
        else
          let maxAllowedLease : Int :=
            match v3Rec with
            | some rec => if rec.LeaseDuration > 0 then rec.LeaseDuration else 3600
            | none => 3600
          let usableTokenTime := mashery.min remainingTokenTime maxAllowedLease
          Outcome.ret
            (some { Secret := some { secret with TTL := durMul usableTokenTime Second },
                    Data := [] })
            none

/-- The method `revokeV3AccessToken`; the second component lists the calls made to the
upstream exchange. An error of the exchange is only logged. The argument
`req.Secret.InternalData[...].(string)` is evaluated before the call and panics when the
refresh token is not a string. -/
def revokeV3AccessToken (b : AuthPlugin) (req : Request) : Outcome × List UpstreamCall :=
  match getAuthRecordOfSecret req with
  | FetchResult.panic => (Outcome.panic, [])
  | FetchResult.ret _ (some err) =>
    (Outcome.ret none (some (Wrapf
      "error in retrieving v3 authentication record: \x7b\x7berr\x7d\x7d" (some err))), [])
  | FetchResult.ret none none => (Outcome.ret none none, [])
  | FetchResult.ret (some v3Rec) none =>
    if suppliesKeyAndSecret v3Rec then
      let v3Credentials := v3Rec.asV3Credentials
      match req.Secret with
      | none => (Outcome.panic, [])
      | some secret =>
        match internalGet secret.InternalData secretInternalRefreshToken with
        | Value.string refreshToken =>
          match b.v3OauthHelper.ExchangeRefreshToken v3Credentials refreshToken with
          | Except.error _ =>
            (Outcome.ret none none, [UpstreamCall.ExchangeRefreshToken v3Credentials refreshToken])
          | Except.ok _ =>
            (Outcome.ret none none, [UpstreamCall.ExchangeRefreshToken v3Credentials refreshToken])
        | _ => (Outcome.panic, [])
    else (Outcome.ret none none, [])


/-! ## The digest of `crypto/md5` (RFC 1321)

`pathReadV2Credentials` feeds the bytes to `md5.New()` with one `Write` and reads the digest
with `Sum(nil)`. The digest is embedded on natural numbers: a word is a number below `2^32`,
a byte a number below 256. -/

/-- Reduction of a sum to a 32-bit word. -/
def md5Word (x : Nat) : Nat := x % 4294967296

/-- Bitwise complement of a 32-bit word. -/
def md5Not (x : Nat) : Nat := x ^^^ 4294967295

/-- Left rotation of a 32-bit word by `s` bits (`bits.RotateLeft32`). -/
def md5Rotl (x s : Nat) : Nat := md5Word (x <<< s) ||| (x >>> (32 - s))

/-- The per-round shift amounts. -/
def md5Shifts : List Nat :=
  [7, 12, 17, 22, 7, 12, 17, 22, 7, 12, 17, 22, 7, 12, 17, 22,
   5, 9, 14, 20, 5, 9, 14, 20, 5, 9, 14, 20, 5, 9, 14, 20,
   4, 11, 16, 23, 4, 11, 16, 23, 4, 11, 16, 23, 4, 11, 16, 23,
   6, 10, 15, 21, 6, 10, 15, 21, 6, 10, 15, 21, 6, 10, 15, 21]

/-- The per-round additive constants `floor(2^32 * |sin(i + 1)|)`. -/
def md5Consts : List Nat :=
  [0xd76aa478, 0xe8c7b756, 0x242070db, 0xc1bdceee,
   0xf57c0faf, 0x4787c62a, 0xa8304613, 0xfd469501,
   0x698098d8, 0x8b44f7af, 0xffff5bb1, 0x895cd7be,
   0x6b901122, 0xfd987193, 0xa679438e, 0x49b40821,
   0xf61e2562, 0xc040b340, 0x265e5a51, 0xe9b6c7aa,
   0xd62f105d, 0x02441453, 0xd8a1e681, 0xe7d3fbc8,
   0x21e1cde6, 0xc33707d6, 0xf4d50d87, 0x455a14ed,
   0xa9e3e905, 0xfcefa3f8, 0x676f02d9, 0x8d2a4c8a,
   0xfffa3942, 0x8771f681, 0x6d9d6122, 0xfde5380c,
   0xa4beea44, 0x4bdecfa9, 0xf6bb4b60, 0xbebfbc70,
   0x289b7ec6, 0xeaa127fa, 0xd4ef3085, 0x04881d05,
   0xd9d4d039, 0xe6db99e5, 0x1fa27cf8, 0xc4ac5665,
   0xf4292244, 0x432aff97, 0xab9423a7, 0xfc93a039,
   0x655b59c3, 0x8f0ccc92, 0xffeff47d, 0x85845dd1,
   0x6fa87e4f, 0xfe2ce6e0, 0xa3014314, 0x4e0811a1,
   0xf7537e82, 0xbd3af235, 0x2ad7d2bb, 0xeb86d391]

/-- The chaining state `(a, b, c, d)` of the digest. -/
structure Md5State where
  a : Nat
  b : Nat
  c : Nat
  d : Nat
  deriving Repr, DecidableEq

/-- The initial chaining state. -/
def md5Init : Md5State :=
  { a := 0x67452301, b := 0xefcdab89, c := 0x98badcfe, d := 0x10325476 }

/-- The little-endian 32-bit word number `g` of a 64-byte block. -/
def md5BlockWord (block : List Nat) (g : Nat) : Nat :=
  block.getD (4 * g) 0 + 256 * block.getD (4 * g + 1) 0 + 65536 * block.getD (4 * g + 2) 0 +
    16777216 * block.getD (4 * g + 3) 0

/-- Step `i` (0 to 63) of the block function. -/
def md5Step (block : List Nat) (st : Md5State) (i : Nat) : Md5State :=
  let f :=
    if i < 16 then (st.b &&& st.c) ||| (md5Not st.b &&& st.d)
    else if i < 32 then (st.d &&& st.b) ||| (md5Not st.d &&& st.c)
    else if i < 48 then st.b ^^^ st.c ^^^ st.d
    else st.c ^^^ (st.b ||| md5Not st.d)
  let g :=
    if i < 16 then i
    else if i < 32 then (5 * i + 1) % 16
    else if i < 48 then (3 * i + 5) % 16
    else (7 * i) % 16
  let f := md5Word (f + st.a + md5Consts.getD i 0 + md5BlockWord block g)
  { a := st.d, d := st.c, c := st.b, b := md5Word (st.b + md5Rotl f (md5Shifts.getD i 0)) }

/-- The block function: 64 steps, then the feed-forward addition. -/
def md5Block (st : Md5State) (block : List Nat) : Md5State :=
  let r := (List.range 64).foldl (md5Step block) st
  { a := md5Word (st.a + r.a), b := md5Word (st.b + r.b), c := md5Word (st.c + r.c),
    d := md5Word (st.d + r.d) }

/-- The block function applied to the first `n` 64-byte blocks of `msg`. -/
def md5Blocks : Nat → List Nat → Md5State → Md5State
  | 0, _, st => st
  | n + 1, msg, st => md5Blocks n (msg.drop 64) (md5Block st (msg.take 64))

/-- The little-endian bytes of a number, `k` of them. -/
def leBytes : Nat → Nat → List Nat
  | 0, _ => []
  | k + 1, x => x % 256 :: leBytes k (x / 256)

/-- The padded message: the byte `0x80`, zero bytes up to 56 modulo 64, and the length in
bits as a 64-bit little-endian number. -/
def md5Pad (msg : List Nat) : List Nat :=
  msg ++ [128] ++ List.replicate ((119 - msg.length % 64) % 64) 0 ++
    leBytes 8 ((msg.length * 8) % 18446744073709551616)

/-- The 16 bytes of a chaining state, each word little-endian. -/
def md5Bytes (st : Md5State) : List UInt8 :=
  (leBytes 4 st.a ++ leBytes 4 st.b ++ leBytes 4 st.c ++ leBytes 4 st.d).map UInt8.ofNat

/-- The MD5 digest of a byte string: `md5.New()`, `Write(bytes)`, `Sum(nil)`. -/
def md5Sum (bytes : List UInt8) : List UInt8 :=
  let padded := md5Pad (bytes.map UInt8.toNat)
  md5Bytes (md5Blocks (padded.length / 64) padded md5Init)

/-! ## Observations on outcomes -/

/-- The lease `(TTL, MaxTTL)` carried by the secret of a returned response, if there is one. -/
def Outcome.lease (o : Outcome) : Option (Int × Int) :=
  match o with
  | Outcome.ret (some resp) _ => resp.Secret.map fun s => (s.TTL, s.MaxTTL)
  | _ => none

/-- The error of an outcome, if the handler returned one. -/
def Outcome.error (o : Outcome) : Option GoError :=
  match o with
  | Outcome.ret _ err => err
  | Outcome.panic => none

/-! ## Sample inputs -/

/-- A storage backend without I/O failures that holds record `r` for the area `test`. -/
def sampleStorage (r : AuthRec) : Storage :=
  { entries := fun p =>
      if p = "area/test" then some { Key := "area/test", Value := EntryValue.json r } else none,
    getErr := fun _ => none, putErr := fun _ => none, deleteErr := fun _ => none }

/-- The record of the specification's V3 example. -/
def sampleRec : AuthRec :=
  { AreaId := "a", AreaNid := 100, ApiKey := "k", KeySecret := "s", Username := "u",
    Password := "p", MaxQPS := 2, LeaseDuration := 300 }

/-- Request fields that carry the area name `test` and nothing else. -/
def sampleData : FieldData :=
  { masheryCredentialsName := "test", area_id := none, area_nid := none, api_key := none,
    secret := none, username := none, password := none, qps := none, lease_duration := none }

/-- An upstream that grants a token valid for `e` seconds and rejects every refresh-token
exchange. -/
def samplePlugin (e : Int) : AuthPlugin :=
  { v3OauthHelper :=
      { RetrieveAccessTokenFor := fun _ =>
          Except.ok { AccessToken := "at", RefreshToken := "rt", ExpiresIn := e },
        ExchangeRefreshToken := fun _ _ => Except.error (errorsNew "upstream unavailable") } }

/-- A reading of the clock. -/
def sampleNow : Time := { sec := 1700000000, nsec := 5 }

/-- The secret of a lease issued for the area `test`, as the host hands it back on renewal
and revocation: token expiry epoch `T`, refresh token `rt`. -/
def sampleSecret (T : Int) : Secret :=
  { TTL := 300 * Second, MaxTTL := Hour, Renewable := true,
    InternalData := some
      [(secretInternalSiteStoragePath, Value.string "area/test"),
       (secretInternalRefreshToken, Value.string "rt"),
       (secretInternalTokenExpiryTime, Value.float64 T),
       ("secret_type", Value.string secretMasheryV3Access)] }

/-- A renew or revoke request for that lease while record `r` is stored for the area. -/
def sampleLeaseReq (r : AuthRec) (T : Int) : Request :=
  { Storage := sampleStorage r, Secret := some (sampleSecret T) }

/-! # Theorems -/

/-! ## Arithmetic lemmas -/

theorem wrap64_of_isInt64 (x : Int) (h : isInt64 x) : wrap64 x = x := by
  unfold isInt64 at h
  unfold wrap64
  omega

theorem min_eq_min (x y : Int) : mashery.min x y = Min.min x y := by
  unfold mashery.min
  split <;> omega

theorem max_eq_max (x y : Int) : mashery.max x y = Max.max x y := by
  unfold mashery.max
  split <;> omega

theorem durMul_seconds (n : Int) (hlo : -9223372036 ≤ n) (hhi : n ≤ 9223372036) :
    durMul Second n = n * Second := by
  unfold durMul Second
  rw [wrap64_of_isInt64]
  · ring
  · unfold isInt64; omega

/-! ## V3 acquire: lease bounds -/

/-- C1 (as amended): for a record sufficient for V3 with lease duration `L` and an upstream
token with `expiresIn = E`, provided `min(L, E)` seconds fits a `time.Duration`
(`-9223372036 ≤ min(L, E) ≤ 9223372036`), the response of `pathReadV3Credentials` has TTL
`min(L, E)` seconds and MaxTTL `max(3600, min(L, E))` seconds. -/
theorem pathReadV3Credentials_lease (b : AuthPlugin) (now : Time) (req : Request)
    (d : FieldData) (entry : StorageEntry) (r : AuthRec) (tkn : TimedAccessTokenResponse)
    (hget : req.Storage.Get (storagePathForMasheryArea d) = (some entry, none))
    (hdec : entry.DecodeJSON = Except.ok r)
    (hsuff : sufficientForV3 r = true)
    (hup : b.v3OauthHelper.RetrieveAccessTokenFor r.asV3Credentials = Except.ok tkn)
    (hlo : -9223372036 ≤ Min.min r.LeaseDuration tkn.ExpiresIn)
    (hhi : Min.min r.LeaseDuration tkn.ExpiresIn ≤ 9223372036) :
    (pathReadV3Credentials b now req d).1.lease =
      some (Min.min r.LeaseDuration tkn.ExpiresIn * Second,
            Max.max 3600 (Min.min r.LeaseDuration tkn.ExpiresIn) * Second) := by
  have hmul := durMul_seconds (Min.min r.LeaseDuration tkn.ExpiresIn) hlo hhi
  have hhour : durMul Hour 1 = 3600 * Second := by decide
  simp only [pathReadV3Credentials, getAuthRecord, hget, hdec, hsuff, hup, Outcome.lease,
    createSecretResponse, secretResponse, Option.map, min_eq_min, max_eq_max, hmul, hhour,
    Bool.not_true, Bool.false_eq_true, if_false]
  have hs : (0 : Int) ≤ Second := by decide
  rw [max_mul_of_nonneg _ _ hs]

/-- C1 witness: the specification's example, `L = 300` and `E = 3600`. -/
theorem pathReadV3Credentials_lease_witness :
    (pathReadV3Credentials (samplePlugin 3600) sampleNow
        { Storage := sampleStorage sampleRec, Secret := none } sampleData).1.lease =
      some (300 * Second, 3600 * Second) :=
  pathReadV3Credentials_lease (samplePlugin 3600) sampleNow
    { Storage := sampleStorage sampleRec, Secret := none } sampleData
    { Key := "area/test", Value := EntryValue.json sampleRec } sampleRec
    { AccessToken := "at", RefreshToken := "rt", ExpiresIn := 3600 }
    (by decide) rfl (by decide) rfl (by decide) (by decide)

/-- C1 counterexample: with `L = E = 9223372037` the record is sufficient for V3 and the
token is granted, but `9223372037` seconds overflow `time.Duration`: the TTL is negative, not
`min(L, E)` seconds, and the MaxTTL is one hour, not `max(3600, min(L, E))` seconds. -/
theorem pathReadV3Credentials_lease_overflow :
    sufficientForV3 { sampleRec with LeaseDuration := 9223372037 } = true ∧
    (pathReadV3Credentials (samplePlugin 9223372037) sampleNow
        { Storage := sampleStorage { sampleRec with LeaseDuration := 9223372037 },
          Secret := none } sampleData).1.lease
      = some (-9223372036709551616, 3600 * Second) ∧
    (pathReadV3Credentials (samplePlugin 9223372037) sampleNow
        { Storage := sampleStorage { sampleRec with LeaseDuration := 9223372037 },
          Secret := none } sampleData).1.lease
      ≠ some (Min.min 9223372037 9223372037 * Second,
              Max.max 3600 (Min.min 9223372037 9223372037) * Second) := by
  decide

/-! ## V3 renew -/

theorem getAuthRecordOfSecret_ret (req : Request) (secret : Secret)
    (internal : List (String × Value))
    (hsec : req.Secret = some secret) (hint : secret.InternalData = some internal)
    (hpath : mapGet internal secretInternalSiteStoragePath ≠ Value.absent) :
    ∃ v3Rec err, getAuthRecordOfSecret req = FetchResult.ret v3Rec err := by
  unfold getAuthRecordOfSecret
  simp only [hsec, hint]
  cases hv : mapGet internal secretInternalSiteStoragePath with
  | absent => exact absurd hv hpath
  | string storagePath =>
    simp only
    rcases req.Storage.Get storagePath with ⟨entry, err⟩
    cases entry with
    | none => cases err <;> exact ⟨_, _, rfl⟩
    | some en =>
      cases err with
      | some e => exact ⟨_, _, rfl⟩
      | none =>
        simp only
        cases en.DecodeJSON with
        | error e => exact ⟨_, _, rfl⟩
        | ok r => exact ⟨_, _, rfl⟩
  | int n => exact ⟨_, _, rfl⟩
  | int64 n => exact ⟨_, _, rfl⟩
  | float64 n => exact ⟨_, _, rfl⟩
  | other => exact ⟨_, _, rfl⟩

/-- The renewal handler once the record fetch has returned and the expiry is a JSON number. -/
theorem extendV3AccessTokenLease_eq (now : Time) (req : Request) (secret : Secret)
    (internal : List (String × Value)) (T : Int) (v3Rec : Option AuthRec)
    (fetchErr : Option GoError)
    (hsec : req.Secret = some secret) (hint : secret.InternalData = some internal)
    (hexp : mapGet internal secretInternalTokenExpiryTime = Value.float64 T)
    (hfetch : getAuthRecordOfSecret req = FetchResult.ret v3Rec fetchErr) :
    extendV3AccessTokenLease now req =
      if wrap64 (T - now.Unix) ≤ 0 then
        Outcome.ret none (some (errorsNew "lease cannot be renews as token has expired"))
      else if wrap64 (T - now.Unix) ≤ 15 then
        Outcome.ret none (some (errorsNew "lease almost expired, request new one instead"))
      else
        Outcome.ret
          (some { Secret := some { secret with
                    TTL := durMul (mashery.min (wrap64 (T - now.Unix))
                      (v3Rec.elim 3600 fun rec =>
                        if rec.LeaseDuration > 0 then rec.LeaseDuration else 3600)) Second },
                  Data := [] })
          none := by
  unfold extendV3AccessTokenLease
  simp only [hfetch, hsec, hint, internalGet, hexp]
  cases v3Rec <;> rfl

/-- C2 (as amended): for a lease internal state that holds a storage path and whose token
expiry epoch is held as a JSON number (a `float64`, the form in which the host hands the
internal data back after its JSON round trip) of value `T`, and a current time `now` such
that `T - now` lies in the signed 64-bit range, `extendV3AccessTokenLease` returns an error
if and only if `T - now ≤ 15`: the "token has expired" error when `T - now ≤ 0`, the "almost
expired" error when `0 < T - now ≤ 15`; when `T - now > 15` (so for `T - now = 16`) it
returns a response and no error. -/
theorem extendV3AccessTokenLease_guard (now : Time) (req : Request) (secret : Secret)
    (internal : List (String × Value)) (T : Int)
    (hsec : req.Secret = some secret) (hint : secret.InternalData = some internal)
    (hpath : mapGet internal secretInternalSiteStoragePath ≠ Value.absent)
    (hexp : mapGet internal secretInternalTokenExpiryTime = Value.float64 T)
    (hrange : isInt64 (T - now.Unix)) :
    ((extendV3AccessTokenLease now req).error ≠ none ↔ T - now.Unix ≤ 15) ∧
    (T - now.Unix ≤ 0 → extendV3AccessTokenLease now req =
      Outcome.ret none (some (errorsNew "lease cannot be renews as token has expired"))) ∧
    (0 < T - now.Unix → T - now.Unix ≤ 15 → extendV3AccessTokenLease now req =
      Outcome.ret none (some (errorsNew "lease almost expired, request new one instead"))) ∧
    (15 < T - now.Unix → ∃ resp, extendV3AccessTokenLease now req = Outcome.ret (some resp) none) := by
  obtain ⟨v3Rec, fetchErr, hfetch⟩ := getAuthRecordOfSecret_ret req secret internal hsec hint hpath
  rw [extendV3AccessTokenLease_eq now req secret internal T v3Rec fetchErr hsec hint hexp hfetch,
    wrap64_of_isInt64 _ hrange]
  refine ⟨?_, ?_, ?_, ?_⟩
  · by_cases h0 : T - now.Unix ≤ 0
    · simp only [h0, if_true, Outcome.error]
      constructor
      · intro _; omega
      · intro _; simp
    · by_cases h15 : T - now.Unix ≤ 15
      · simp [h0, h15, Outcome.error]
      · simp [h0, h15, Outcome.error]
  · intro h0
    simp only [h0, if_true]
  · intro h0 h15
    have : ¬ T - now.Unix ≤ 0 := by omega
    simp only [this, h15, if_true, if_false]
  · intro h
    have h0 : ¬ T - now.Unix ≤ 0 := by omega
    have h15 : ¬ T - now.Unix ≤ 15 := by omega
    simp only [h0, h15, if_false]
    exact ⟨_, rfl⟩

/-- C2 witness: sixteen seconds before expiry the renewal returns a response and no error. -/
theorem extendV3AccessTokenLease_guard_witness :
    (1700000016 : Int) - sampleNow.Unix = 16 ∧
    ∃ resp, extendV3AccessTokenLease sampleNow (sampleLeaseReq sampleRec 1700000016) =
      Outcome.ret (some resp) none :=
  ⟨by decide,
    (extendV3AccessTokenLease_guard sampleNow (sampleLeaseReq sampleRec 1700000016)
      (sampleSecret 1700000016) _ 1700000016 rfl rfl (by decide) (by decide)
      (by decide)).2.2.2 (by decide)⟩

/-- C2 counterexample: the lease that `pathReadV3Credentials` issues at `now = 1700000000`
for a token valid 3600 seconds holds its expiry epoch `T = 1700003600` as an `int64`. Renewing
that very state at the same clock reading, with `T - now = 3600 > 15` and within the 64-bit
range, returns the "token has expired" error: the type assertion `expRaw.(float64)` does not
hold and the remaining time stays 0. -/
theorem extendV3AccessTokenLease_guard_int64_expiry :
    (pathReadV3Credentials (samplePlugin 3600) sampleNow
        { Storage := sampleStorage sampleRec, Secret := none } sampleData).1 =
      Outcome.ret
        (some (createSecretResponse sampleNow
          { AccessToken := "at", RefreshToken := "rt", ExpiresIn := 3600 } sampleRec sampleData))
        none ∧
    (createSecretResponse sampleNow
        { AccessToken := "at", RefreshToken := "rt", ExpiresIn := 3600 } sampleRec
        sampleData).Secret.map
      (fun s => internalGet s.InternalData secretInternalTokenExpiryTime) =
      some (Value.int64 1700003600) ∧
    15 < (1700003600 : Int) - sampleNow.Unix ∧
    isInt64 ((1700003600 : Int) - sampleNow.Unix) ∧
    extendV3AccessTokenLease sampleNow
        { Storage := sampleStorage sampleRec,
          Secret := (createSecretResponse sampleNow
            { AccessToken := "at", RefreshToken := "rt", ExpiresIn := 3600 } sampleRec
            sampleData).Secret } =
      Outcome.ret none (some (errorsNew "lease cannot be renews as token has expired")) := by
  decide

/-- The range condition of C2: with a `float64` expiry epoch `T = -9223372036854775808` at
time `now = 1700000000`, `T - now ≤ 15` holds, but the 64-bit subtraction wraps around to a
large positive remaining time and the renewal returns a response and no error. -/
theorem extendV3AccessTokenLease_guard_wraps :
    (-9223372036854775808 : Int) - sampleNow.Unix ≤ 15 ∧
    (extendV3AccessTokenLease sampleNow
      (sampleLeaseReq sampleRec (-9223372036854775808))).error = none ∧
    extendV3AccessTokenLease sampleNow (sampleLeaseReq sampleRec (-9223372036854775808)) =
      Outcome.ret
        (some { Secret := some { sampleSecret (-9223372036854775808) with TTL := 300 * Second },
                Data := [] })
        none := by
  decide

/-- The lease of a renewal that returned one: the remaining time was above the guard band
and the TTL is the wrapped product with `time.Second`. -/
theorem extendV3AccessTokenLease_lease_inv (now : Time) (req : Request) (secret : Secret)
    (internal : List (String × Value)) (T : Int) (v3Rec : Option AuthRec)
    (fetchErr : Option GoError) (ttl maxTTL : Int)
    (hsec : req.Secret = some secret) (hint : secret.InternalData = some internal)
    (hexp : mapGet internal secretInternalTokenExpiryTime = Value.float64 T)
    (hfetch : getAuthRecordOfSecret req = FetchResult.ret v3Rec fetchErr)
    (hlease : (extendV3AccessTokenLease now req).lease = some (ttl, maxTTL)) :
    15 < wrap64 (T - now.Unix) ∧
    ttl = wrap64 (Min.min (wrap64 (T - now.Unix))
      (v3Rec.elim 3600 fun rec =>
        if rec.LeaseDuration > 0 then rec.LeaseDuration else 3600) * Second) := by
  rw [extendV3AccessTokenLease_eq now req secret internal T v3Rec fetchErr hsec hint hexp hfetch]
    at hlease
  by_cases h0 : wrap64 (T - now.Unix) ≤ 0
  · simp [h0, Outcome.lease] at hlease
  · by_cases h15 : wrap64 (T - now.Unix) ≤ 15
    · simp [h0, h15, Outcome.lease] at hlease
    · simp only [h0, h15, if_false, Outcome.lease, Option.map, Option.some.injEq,
        Prod.mk.injEq] at hlease
      refine ⟨by omega, ?_⟩
      rw [← hlease.1, min_eq_min]
      rfl

/-- C4 (as amended): for a lease with token expiry epoch `T` and an unchanged stored record
(hence a constant policy ceiling), renewals at times `t1 < t2 < T` that both return a lease
yield `ttl1 ≥ ttl2`, provided `min(T - t1, ceiling)` seconds fits a `time.Duration` (at most
9223372036). -/
theorem extendV3AccessTokenLease_mono (now1 now2 : Time) (req : Request) (secret : Secret)
    (internal : List (String × Value)) (T : Int) (v3Rec : Option AuthRec)
    (fetchErr : Option GoError) (ceiling ttl1 ttl2 max1 max2 : Int)
    (hsec : req.Secret = some secret) (hint : secret.InternalData = some internal)
    (hexp : mapGet internal secretInternalTokenExpiryTime = Value.float64 T)
    (hfetch : getAuthRecordOfSecret req = FetchResult.ret v3Rec fetchErr)
    (hceil : (∃ rec, v3Rec = some rec ∧ 0 < rec.LeaseDuration ∧ ceiling = rec.LeaseDuration) ∨
      ((v3Rec = none ∨ ∃ rec, v3Rec = some rec ∧ rec.LeaseDuration ≤ 0) ∧ ceiling = 3600))
    (hT : isInt64 T) (hn1 : isInt64 now1.Unix) (hn2 : isInt64 now2.Unix)
    (ht12 : now1.Unix < now2.Unix) (ht2T : now2.Unix < T)
    (hr1 : (extendV3AccessTokenLease now1 req).lease = some (ttl1, max1))
    (hr2 : (extendV3AccessTokenLease now2 req).lease = some (ttl2, max2))
    (hfit : Min.min (T - now1.Unix) ceiling ≤ 9223372036) :
    ttl2 ≤ ttl1 := by
  have hc : (v3Rec.elim 3600 fun rec =>
      if rec.LeaseDuration > 0 then rec.LeaseDuration else 3600) = ceiling := by
    rcases hceil with ⟨rec, h1, h2, h3⟩ | ⟨h1 | ⟨rec, h1, h2⟩, h3⟩
    · subst h1; simp [Option.elim, h2, h3]
    · subst h1; simp [Option.elim, h3]
    · subst h1
      have : ¬ rec.LeaseDuration > 0 := by omega
      simp [Option.elim, this, h3]
  have hpos : 0 < ceiling := by
    rcases hceil with ⟨rec, _, h2, h3⟩ | ⟨_, h3⟩ <;> omega
  obtain ⟨hg1, he1⟩ := extendV3AccessTokenLease_lease_inv now1 req secret internal T v3Rec
    fetchErr ttl1 max1 hsec hint hexp hfetch hr1
  obtain ⟨hg2, he2⟩ := extendV3AccessTokenLease_lease_inv now2 req secret internal T v3Rec
    fetchErr ttl2 max2 hsec hint hexp hfetch hr2
  rw [hc] at he1 he2
  unfold isInt64 at hT hn1 hn2
  have hw1 : wrap64 (T - now1.Unix) = T - now1.Unix := by
    unfold wrap64 at hg1 ⊢
    omega
  have hw2 : wrap64 (T - now2.Unix) = T - now2.Unix := by
    unfold wrap64 at hg2 ⊢
    omega
  rw [hw1] at he1 hg1
  rw [hw2] at he2 hg2
  have hm1 : wrap64 (Min.min (T - now1.Unix) ceiling * Second)
      = Min.min (T - now1.Unix) ceiling * Second := by
    apply wrap64_of_isInt64
    unfold isInt64 Second
    omega
  have hm2 : wrap64 (Min.min (T - now2.Unix) ceiling * Second)
      = Min.min (T - now2.Unix) ceiling * Second := by
    apply wrap64_of_isInt64
    unfold isInt64 Second
    omega
  rw [hm1] at he1
  rw [hm2] at he2
  rw [he1, he2]
  unfold Second
  omega

/-- C4 witness: with lease duration 300 stored and expiry at 1700000500, renewals at
1700000000 and at 1700000300 give TTLs of 300 and 200 seconds. -/
theorem extendV3AccessTokenLease_mono_witness :
    (extendV3AccessTokenLease sampleNow (sampleLeaseReq sampleRec 1700000500)).lease =
      some (300 * Second, Hour) ∧
    (extendV3AccessTokenLease { sec := 1700000300, nsec := 0 }
      (sampleLeaseReq sampleRec 1700000500)).lease = some (200 * Second, Hour) ∧
    200 * Second ≤ 300 * Second :=
  ⟨by decide, by decide,
    extendV3AccessTokenLease_mono sampleNow { sec := 1700000300, nsec := 0 }
      (sampleLeaseReq sampleRec 1700000500) (sampleSecret 1700000500) _ 1700000500
      (some sampleRec) none 300 (300 * Second) (200 * Second) Hour Hour rfl rfl (by decide)
      (by decide) (Or.inl ⟨sampleRec, rfl, by decide, rfl⟩) (by decide) (by decide) (by decide)
      (by decide) (by decide) (by decide) (by decide) (by decide)⟩

/-- C4 counterexample: the stored lease duration is 10000000000 seconds and the token
expires at `T = 10923372037`. Renewals at `t1 = 1700000000 < t2 = 1700000001 < T` both
return a lease, but `ttl1 < ttl2`: at `t1` the 9223372037 remaining seconds overflow
`time.Duration` and the TTL is negative, at `t2` the TTL is 9223372036 seconds. -/
theorem extendV3AccessTokenLease_mono_overflow :
    sampleNow.Unix < (1700000001 : Int) ∧ (1700000001 : Int) < 10923372037 ∧
    (extendV3AccessTokenLease sampleNow
      (sampleLeaseReq { sampleRec with LeaseDuration := 10000000000 } 10923372037)).lease =
        some (-9223372036709551616, Hour) ∧
    (extendV3AccessTokenLease { sec := 1700000001, nsec := 0 }
      (sampleLeaseReq { sampleRec with LeaseDuration := 10000000000 } 10923372037)).lease =
        some (9223372036 * Second, Hour) ∧
    ¬ (9223372036 * Second ≤ (-9223372036709551616 : Int)) := by
  decide

/-! ## String length -/

theorem len_pos_iff (s : String) : len s > 0 ↔ s ≠ "" := by
  rcases s with ⟨cs⟩
  cases cs with
  | nil => simp [len, String.utf8ByteSize, String.utf8ByteSize.go]
  | cons c cs =>
    have hc := Char.utf8Size_pos c
    have hne : (String.mk (c :: cs)) ≠ "" := by
      intro h
      have := congrArg String.data h
      simp at this
    simp only [len, String.utf8ByteSize, String.utf8ByteSize.go, gt_iff_lt, ne_eq, hne,
      not_false_eq_true, iff_true]
    omega

theorem suppliesKeyAndSecret_iff (r : AuthRec) :
    suppliesKeyAndSecret r = true ↔ r.ApiKey ≠ "" ∧ r.KeySecret ≠ "" := by
  simp only [suppliesKeyAndSecret, Bool.and_eq_true, decide_eq_true_eq, len_pos_iff]

theorem sufficientForV3_iff (r : AuthRec) :
    sufficientForV3 r = true ↔
      r.AreaId ≠ "" ∧ r.ApiKey ≠ "" ∧ r.KeySecret ≠ "" ∧ r.Username ≠ "" ∧ r.Password ≠ "" := by
  simp only [sufficientForV3, Bool.and_eq_true, decide_eq_true_eq, len_pos_iff,
    suppliesKeyAndSecret_iff]
  tauto

/-! ## Credential record store: update and delete -/

/-- Fields that the request does not carry keep their value under `mergeSiteFieldsInto`,
with the exception of `MaxQPS`. -/
theorem mergeSiteFieldsInto_frame (data : FieldData) (r : AuthRec) :
    (data.area_id = none → (mergeSiteFieldsInto data r).AreaId = r.AreaId) ∧
    (data.area_nid = none → (mergeSiteFieldsInto data r).AreaNid = r.AreaNid) ∧
    (data.api_key = none → (mergeSiteFieldsInto data r).ApiKey = r.ApiKey) ∧
    (data.secret = none → (mergeSiteFieldsInto data r).KeySecret = r.KeySecret) ∧
    (data.username = none → (mergeSiteFieldsInto data r).Username = r.Username) ∧
    (data.password = none → (mergeSiteFieldsInto data r).Password = r.Password) ∧
    (data.lease_duration = none → (mergeSiteFieldsInto data r).LeaseDuration = r.LeaseDuration) := by
  rcases data with ⟨n, a1, a2, a3, a4, a5, a6, a7, a8⟩
  cases a1 <;> cases a2 <;> cases a3 <;> cases a4 <;> cases a5 <;> cases a6 <;> cases a7 <;>
    cases a8 <;> simp [mergeSiteFieldsInto] <;> split <;> simp

/-- A request without `qps` makes `mergeSiteFieldsInto` set `MaxQPS` to 2, whatever the
record held. -/
theorem mergeSiteFieldsInto_qps_omitted (data : FieldData) (r : AuthRec)
    (h : data.qps = none) : (mergeSiteFieldsInto data r).MaxQPS = 2 := by
  rcases data with ⟨n, a1, a2, a3, a4, a5, a6, a7, a8⟩
  simp only at h
  subst h
  cases a8 with
  | none => rfl
  | some v =>
    simp only [mergeSiteFieldsInto]
    split <;> rfl

/-- C5, evaluated at a failing input: the stored record has `MaxQPS = 10` and the update
request carries only `api_key`. The record written back has the new key and every other
omitted field as before, except `MaxQPS`, which is 2 instead of 10. -/
theorem handleUpdateAreaData_omitted_qps_reset :
    (handleUpdateAreaData
        { Storage := sampleStorage { sampleRec with MaxQPS := 10 }, Secret := none }
        { sampleData with api_key := some "k2" }).1 = Outcome.ret none none ∧
    (handleUpdateAreaData
        { Storage := sampleStorage { sampleRec with MaxQPS := 10 }, Secret := none }
        { sampleData with api_key := some "k2" }).2.entries "area/test" =
      some { Key := "area/test",
             Value := EntryValue.json { sampleRec with ApiKey := "k2", MaxQPS := 2 } } := by
  decide

/-- C6: when the stored record decodes to `r` and the update request carries only
`qps = q`, `handleUpdateAreaData` hands `r` with `MaxQPS` replaced by `q` to
`persistAuthRecord`; when the backend accepts the write, the handler returns no error and
that record is what is stored at the area's path. -/
theorem handleUpdateAreaData_only_qps (req : Request) (d : FieldData) (entry : StorageEntry)
    (r : AuthRec) (q : Int)
    (hget : req.Storage.Get (storagePathForMasheryArea d) = (some entry, none))
    (hdec : entry.DecodeJSON = Except.ok r)
    (hq : d.qps = some q)
    (honly : d.area_id = none ∧ d.area_nid = none ∧ d.api_key = none ∧ d.secret = none ∧
      d.username = none ∧ d.password = none ∧ d.lease_duration = none) :
    handleUpdateAreaData req d = persistAuthRecord req d { r with MaxQPS := q } ∧
    (req.Storage.putErr (storagePathForMasheryArea d) = none →
      (handleUpdateAreaData req d).1 = Outcome.ret none none ∧
      (handleUpdateAreaData req d).2.entries (storagePathForMasheryArea d) =
        some { Key := storagePathForMasheryArea d,
               Value := EntryValue.json { r with MaxQPS := q } }) := by
  obtain ⟨h1, h2, h3, h4, h5, h6, h7⟩ := honly
  have hmerge : mergeSiteFieldsInto d r = { r with MaxQPS := q } := by
    simp only [mergeSiteFieldsInto, h1, h2, h3, h4, h5, h6, h7, hq]
  have hupd : handleUpdateAreaData req d = persistAuthRecord req d { r with MaxQPS := q } := by
    simp only [handleUpdateAreaData, getAuthRecord, hget, hdec, hmerge]
  refine ⟨hupd, ?_⟩
  intro hput
  rw [hupd]
  simp [persistAuthRecord, StorageEntryJSON, Storage.Put, hput]

/-- C6 witness: the sample record with `qps = 7` supplied. -/
theorem handleUpdateAreaData_only_qps_witness :
    (handleUpdateAreaData { Storage := sampleStorage sampleRec, Secret := none }
        { sampleData with qps := some 7 }).1 = Outcome.ret none none ∧
    (handleUpdateAreaData { Storage := sampleStorage sampleRec, Secret := none }
        { sampleData with qps := some 7 }).2.entries "area/test" =
      some { Key := "area/test", Value := EntryValue.json { sampleRec with MaxQPS := 7 } } :=
  (handleUpdateAreaData_only_qps { Storage := sampleStorage sampleRec, Secret := none }
    { sampleData with qps := some 7 } { Key := "area/test", Value := EntryValue.json sampleRec }
    sampleRec 7 (by decide) rfl rfl ⟨rfl, rfl, rfl, rfl, rfl, rfl, rfl⟩).2 rfl

/-- C10, evaluated at a failing input: deleting the area `test` from a backend whose delete
succeeds removes the entry, and the handler still returns a non-nil error, the one that
`errwrap.Wrapf` builds around the nil error of the delete. -/
theorem handleDeleteAreaData_returns_error :
    (sampleStorage sampleRec).deleteErr (storagePathForMasheryArea sampleData) = none ∧
    (handleDeleteAreaData { Storage := sampleStorage sampleRec, Secret := none } sampleData).1 =
      Outcome.ret none
        (some (GoError.wrappedNil "failed to delete site data: \x7b\x7berr\x7d\x7d")) ∧
    (handleDeleteAreaData { Storage := sampleStorage sampleRec, Secret := none }
      sampleData).2.entries "area/test" = none := by
  decide

/-- Whatever the backend answers to the delete, `handleDeleteAreaData` returns an error. -/
theorem handleDeleteAreaData_error_ne_none (req : Request) (d : FieldData) :
    (handleDeleteAreaData req d).1.error ≠ none := by
  simp [handleDeleteAreaData, Outcome.error]

/-! ## V2 issue -/

/-- C7: when the stored record decodes to `r`, `pathReadV2Credentials` returns the
"insufficient data" error and no response if and only if `AreaNid` is 0 or `ApiKey` is empty
or `KeySecret` is empty; otherwise it returns a response whose data carries the record's
`AreaNid`, `ApiKey` and `MaxQPS`, and no error. -/
theorem pathReadV2Credentials_sufficiency (md5Sum : List UInt8 → List UInt8) (now : Time)
    (req : Request) (d : FieldData) (entry : StorageEntry) (r : AuthRec)
    (hget : req.Storage.Get (storagePathForMasheryArea d) = (some entry, none))
    (hdec : entry.DecodeJSON = Except.ok r) :
    (pathReadV2Credentials md5Sum now req d =
        Outcome.ret none (some (errorsNew "insufficient data to generate V2 signature")) ↔
      (r.AreaNid = 0 ∨ r.ApiKey = "" ∨ r.KeySecret = "")) ∧
    (¬ (r.AreaNid = 0 ∨ r.ApiKey = "" ∨ r.KeySecret = "") →
      ∃ resp, pathReadV2Credentials md5Sum now req d = Outcome.ret (some resp) none ∧
        mapGet resp.Data secretAreaNidField = Value.int r.AreaNid ∧
        mapGet resp.Data secretApiKeField = Value.string r.ApiKey ∧
        mapGet resp.Data secretQpsField = Value.int r.MaxQPS) := by
  have hk := suppliesKeyAndSecret_iff r
  by_cases hins : r.AreaNid = 0 ∨ r.ApiKey = "" ∨ r.KeySecret = ""
  · have hcond : (decide (r.AreaNid = 0) || !suppliesKeyAndSecret r) = true := by
      rcases hins with h | h | h
      · simp [h]
      · have : suppliesKeyAndSecret r = false := by
          rw [Bool.eq_false_iff]; intro hs; exact (hk.mp hs).1 h
        simp [this]
      · have : suppliesKeyAndSecret r = false := by
          rw [Bool.eq_false_iff]; intro hs; exact (hk.mp hs).2 h
        simp [this]
    simp only [pathReadV2Credentials, hget, hdec, hcond, if_true, hins, not_true_eq_false,
      false_implies, and_self]
  · have hs : suppliesKeyAndSecret r = true := by
      apply hk.mpr
      constructor
      · intro h; exact hins (Or.inr (Or.inl h))
      · intro h; exact hins (Or.inr (Or.inr h))
    have hn : r.AreaNid ≠ 0 := fun h => hins (Or.inl h)
    have hcond : (decide (r.AreaNid = 0) || !suppliesKeyAndSecret r) = false := by
      simp [hs, hn]
    simp only [pathReadV2Credentials, hget, hdec, hcond, hins, iff_false, not_false_eq_true,
      true_implies]
    refine ⟨by simp, _, rfl, ?_, ?_, ?_⟩ <;>
      simp [secretResponse, mapGet, secretAreaNidField, secretApiKeField, secretQpsField,
        secretSignedSecretField]

/-- C7 witness: the sample record (`AreaNid = 100`, key `k`, secret `s`) is served. -/
theorem pathReadV2Credentials_sufficiency_witness :
    ∃ resp, pathReadV2Credentials (fun _ => []) sampleNow
        { Storage := sampleStorage sampleRec, Secret := none } sampleData =
        Outcome.ret (some resp) none ∧
      mapGet resp.Data secretAreaNidField = Value.int 100 ∧
      mapGet resp.Data secretApiKeField = Value.string "k" ∧
      mapGet resp.Data secretQpsField = Value.int 2 :=
  (pathReadV2Credentials_sufficiency (fun _ => []) sampleNow
    { Storage := sampleStorage sampleRec, Secret := none } sampleData
    { Key := "area/test", Value := EntryValue.json sampleRec } sampleRec (by decide) rfl).2
    (by decide)

/-! ## V3 acquire: insufficient records -/

/-- C8: `sufficientForV3` holds exactly when `AreaId`, `ApiKey`, `KeySecret`, `Username`
and `Password` are all non-empty; and when the stored record decodes to `r` and one of the
five is empty, `pathReadV3Credentials` returns the "not sufficient" error, no response, and
makes no call to the upstream exchange. -/
theorem pathReadV3Credentials_insufficient (b : AuthPlugin) (now : Time) (req : Request)
    (d : FieldData) (entry : StorageEntry) (r : AuthRec)
    (hget : req.Storage.Get (storagePathForMasheryArea d) = (some entry, none))
    (hdec : entry.DecodeJSON = Except.ok r) :
    (sufficientForV3 r = true ↔
      r.AreaId ≠ "" ∧ r.ApiKey ≠ "" ∧ r.KeySecret ≠ "" ∧ r.Username ≠ "" ∧ r.Password ≠ "") ∧
    ((r.AreaId = "" ∨ r.ApiKey = "" ∨ r.KeySecret = "" ∨ r.Username = "" ∨ r.Password = "") →
      pathReadV3Credentials b now req d =
        (Outcome.ret none
          (some (errorsNew "site data is not sufficient to request v3 access token")), [])) := by
  refine ⟨sufficientForV3_iff r, ?_⟩
  intro hempty
  have hs : sufficientForV3 r = false := by
    rw [Bool.eq_false_iff]
    intro h
    obtain ⟨h1, h2, h3, h4, h5⟩ := (sufficientForV3_iff r).mp h
    rcases hempty with e | e | e | e | e
    · exact h1 e
    · exact h2 e
    · exact h3 e
    · exact h4 e
    · exact h5 e
  simp only [pathReadV3Credentials, getAuthRecord, hget, hdec, hs, Bool.not_false, if_true]

/-- C8 witness: the sample record without a password is refused without an upstream call. -/
theorem pathReadV3Credentials_insufficient_witness :
    pathReadV3Credentials (samplePlugin 3600) sampleNow
        { Storage := sampleStorage { sampleRec with Password := "" }, Secret := none }
        sampleData =
      (Outcome.ret none
        (some (errorsNew "site data is not sufficient to request v3 access token")), []) :=
  (pathReadV3Credentials_insufficient (samplePlugin 3600) sampleNow
    { Storage := sampleStorage { sampleRec with Password := "" }, Secret := none } sampleData
    { Key := "area/test", Value := EntryValue.json { sampleRec with Password := "" } }
    { sampleRec with Password := "" } (by decide) rfl).2
    (Or.inr (Or.inr (Or.inr (Or.inr rfl))))

/-! ## V3 revoke -/

/-- C9: for a lease whose internal state holds a string storage path and a string refresh
token, when the read of the owning record meets no storage error (the backend answers the
read without error, and an entry found there decodes), `revokeV3AccessToken` returns no
response and no error, whatever the upstream refresh-token exchange answers. -/
theorem revokeV3AccessToken_succeeds (b : AuthPlugin) (req : Request) (secret : Secret)
    (internal : List (String × Value)) (storagePath refreshToken : String)
    (stored : Option StorageEntry)
    (hsec : req.Secret = some secret) (hint : secret.InternalData = some internal)
    (hpath : mapGet internal secretInternalSiteStoragePath = Value.string storagePath)
    (hrt : mapGet internal secretInternalRefreshToken = Value.string refreshToken)
    (hget : req.Storage.Get storagePath = (stored, none))
    (hdec : ∀ entry, stored = some entry → ∃ r, entry.DecodeJSON = Except.ok r) :
    (revokeV3AccessToken b req).1 = Outcome.ret none none := by
  cases stored with
  | none =>
    have hfetch : getAuthRecordOfSecret req = FetchResult.ret none none := by
      simp only [getAuthRecordOfSecret, hsec, hint, hpath, hget]
    simp only [revokeV3AccessToken, hfetch]
  | some entry =>
    obtain ⟨r, hr⟩ := hdec entry rfl
    have hfetch : getAuthRecordOfSecret req = FetchResult.ret (some r) none := by
      simp only [getAuthRecordOfSecret, hsec, hint, hpath, hget, hr]
    simp only [revokeV3AccessToken, hfetch, hsec, hint, internalGet, hrt]
    split
    · cases b.v3OauthHelper.ExchangeRefreshToken r.asV3Credentials refreshToken <;> rfl
    · rfl

/-- C9 witness: the upstream rejects the refresh-token exchange, the exchange is attempted,
and the revocation still returns no error. -/
theorem revokeV3AccessToken_succeeds_witness :
    (samplePlugin 3600).v3OauthHelper.ExchangeRefreshToken sampleRec.asV3Credentials "rt" =
      Except.error (errorsNew "upstream unavailable") ∧
    (revokeV3AccessToken (samplePlugin 3600) (sampleLeaseReq sampleRec 1700003600)).2 =
      [UpstreamCall.ExchangeRefreshToken sampleRec.asV3Credentials "rt"] ∧
    (revokeV3AccessToken (samplePlugin 3600) (sampleLeaseReq sampleRec 1700003600)).1 =
      Outcome.ret none none :=
  ⟨rfl, by decide,
    revokeV3AccessToken_succeeds (samplePlugin 3600) (sampleLeaseReq sampleRec 1700003600)
      (sampleSecret 1700003600) _ "area/test" "rt"
      (some { Key := "area/test", Value := EntryValue.json sampleRec }) rfl rfl (by decide)
      (by decide) (by decide) (fun entry h => ⟨sampleRec, by cases h; rfl⟩)⟩

/-! ## Credential record store: normalisation of a zero lease duration -/

theorem mergeSiteFieldsInto_zero_duration (d : FieldData) (r : AuthRec)
    (hzero : d.lease_duration = some 0) : (mergeSiteFieldsInto d r).LeaseDuration = 900 := by
  simp [mergeSiteFieldsInto, hzero]

theorem toV3AuthRec_default_duration (d : FieldData)
    (h : d.lease_duration = none ∨ d.lease_duration = some 0) :
    (toV3AuthRec d).LeaseDuration = 900 := by
  rcases h with h | h
  · have hm : (mergeSiteFieldsInto d AuthRec.zero).LeaseDuration = 0 := by
      rw [(mergeSiteFieldsInto_frame d AuthRec.zero).2.2.2.2.2.2 h]
      rfl
    simp [toV3AuthRec, hm]
  · have hm := mergeSiteFieldsInto_zero_duration d AuthRec.zero h
    simp [toV3AuthRec, hm]

theorem persistAuthRecord_stored (req : Request) (d : FieldData) (rec : AuthRec)
    (hput : req.Storage.putErr (storagePathForMasheryArea d) = none) :
    (persistAuthRecord req d rec).1 = Outcome.ret none none ∧
    (persistAuthRecord req d rec).2.entries (storagePathForMasheryArea d) =
      some { Key := storagePathForMasheryArea d, Value := EntryValue.json rec } := by
  simp [persistAuthRecord, StorageEntryJSON, Storage.Put, hput]

/-- C11: when the stored record decodes to `r` and the update request supplies
`lease_duration = 0`, the record that `handleUpdateAreaData` hands to `persistAuthRecord`
has `LeaseDuration = 900`; when the create request omits `lease_duration` or supplies 0, the
record that `handleWriteAreaData` hands to `persistAuthRecord` has `LeaseDuration = 900`. In
both cases, when the backend accepts the write, the entry stored at the area's path holds a
record with `LeaseDuration = 900`, not 0. -/
theorem leaseDuration_zero_normalized (req : Request) (d : FieldData) :
    (∀ entry r, req.Storage.Get (storagePathForMasheryArea d) = (some entry, none) →
      entry.DecodeJSON = Except.ok r → d.lease_duration = some 0 →
      ∃ rec, rec.LeaseDuration = 900 ∧
        handleUpdateAreaData req d = persistAuthRecord req d rec ∧
        (req.Storage.putErr (storagePathForMasheryArea d) = none →
          (handleUpdateAreaData req d).2.entries (storagePathForMasheryArea d) =
            some { Key := storagePathForMasheryArea d, Value := EntryValue.json rec })) ∧
    ((d.lease_duration = none ∨ d.lease_duration = some 0) →
      ∃ rec, rec.LeaseDuration = 900 ∧
        handleWriteAreaData req d = persistAuthRecord req d rec ∧
        (req.Storage.putErr (storagePathForMasheryArea d) = none →
          (handleWriteAreaData req d).2.entries (storagePathForMasheryArea d) =
            some { Key := storagePathForMasheryArea d, Value := EntryValue.json rec })) := by
  constructor
  · intro entry r hget hdec hzero
    have hupd : handleUpdateAreaData req d =
        persistAuthRecord req d (mergeSiteFieldsInto d r) := by
      simp only [handleUpdateAreaData, getAuthRecord, hget, hdec]
    refine ⟨mergeSiteFieldsInto d r, mergeSiteFieldsInto_zero_duration d r hzero, hupd, ?_⟩
    intro hput
    rw [hupd]
    exact (persistAuthRecord_stored req d _ hput).2
  · intro h
    refine ⟨toV3AuthRec d, toV3AuthRec_default_duration d h, rfl, ?_⟩
    intro hput
    exact (persistAuthRecord_stored req d _ hput).2

/-- C11 witness: an update of the sample record (lease duration 300) that supplies
`lease_duration = 0` stores 900, and so do a create that supplies 0 and a create that omits
the field. -/
theorem leaseDuration_zero_normalized_witness :
    (∃ rec, rec.LeaseDuration = 900 ∧
      (handleUpdateAreaData { Storage := sampleStorage sampleRec, Secret := none }
        { sampleData with lease_duration := some 0 }).2.entries "area/test" =
        some { Key := "area/test", Value := EntryValue.json rec }) ∧
    (∃ rec, rec.LeaseDuration = 900 ∧
      (handleWriteAreaData { Storage := sampleStorage sampleRec, Secret := none }
        { sampleData with lease_duration := some 0 }).2.entries "area/test" =
        some { Key := "area/test", Value := EntryValue.json rec }) ∧
    (toV3AuthRec sampleData).LeaseDuration = 900 := by
  refine ⟨?_, ?_, by decide⟩
  · obtain ⟨rec, h1, _, h3⟩ :=
      (leaseDuration_zero_normalized { Storage := sampleStorage sampleRec, Secret := none }
        { sampleData with lease_duration := some 0 }).1
        { Key := "area/test", Value := EntryValue.json sampleRec } sampleRec (by decide) rfl rfl
    exact ⟨rec, h1, h3 rfl⟩
  · obtain ⟨rec, h1, _, h3⟩ :=
      (leaseDuration_zero_normalized { Storage := sampleStorage sampleRec, Secret := none }
        { sampleData with lease_duration := some 0 }).2 (Or.inr rfl)
    exact ⟨rec, h1, h3 rfl⟩

/-! ## V2 issue: the signature -/

theorem md5Sum_length (bytes : List UInt8) : (md5Sum bytes).length = 16 := by
  simp [md5Sum, md5Bytes, leBytes]

theorem hexEncodeToString_length (src : List UInt8) :
    (hexEncodeToString src).length = 2 * src.length := by
  unfold hexEncodeToString
  rw [String.length_mk]
  induction src with
  | nil => rfl
  | cons v rest ih =>
    simp only [List.flatMap_cons, List.length_append, List.length_cons, List.length_nil, ih]
    omega

theorem hexDigit_mem (n : Nat) (h : n < 16) : hexDigit n ∈ hextable.data := by
  interval_cases n <;> decide

theorem hexEncodeToString_digits (src : List UInt8) :
    ∀ c ∈ (hexEncodeToString src).data, c ∈ hextable.data := by
  intro c hc
  simp only [hexEncodeToString, List.mem_flatMap, List.mem_cons, List.mem_singleton,
    List.not_mem_nil, or_false] at hc
  obtain ⟨v, _, hv⟩ := hc
  have hlt : v.toNat < 256 := v.val.isLt
  rcases hv with hv | hv
  · rw [hv]; exact hexDigit_mem _ (by omega)
  · rw [hv]; exact hexDigit_mem _ (by omega)

/-- C12: for a stored record that is sufficient for V2 (`AreaNid` not 0, key and secret
supplied) and every clock reading, `pathReadV2Credentials` returns a response whose `sig` is
the hex encoding of the MD5 digest of the bytes of `ApiKey ++ KeySecret ++ decimal(now)`,
with `now` the Unix time in seconds; that string has exactly 32 characters, each of them a
digit of `0123456789abcdef`. -/
theorem pathReadV2Credentials_sig (now : Time) (req : Request) (d : FieldData)
    (entry : StorageEntry) (r : AuthRec)
    (hget : req.Storage.Get (storagePathForMasheryArea d) = (some entry, none))
    (hdec : entry.DecodeJSON = Except.ok r)
    (hnid : r.AreaNid ≠ 0) (hks : suppliesKeyAndSecret r = true) :
    ∃ resp sig, pathReadV2Credentials md5Sum now req d = Outcome.ret (some resp) none ∧
      mapGet resp.Data secretSignedSecretField = Value.string sig ∧
      sig = hexEncodeToString
        (md5Sum (stringBytes (r.ApiKey ++ r.KeySecret ++ toString now.Unix))) ∧
      sig.length = 32 ∧ ∀ c ∈ sig.data, c ∈ hextable.data := by
  have hcond : (decide (r.AreaNid = 0) || !suppliesKeyAndSecret r) = false := by
    simp [hks, hnid]
  simp only [pathReadV2Credentials, hget, hdec, hcond, Bool.false_eq_true, if_false]
  refine ⟨_, _, rfl, ?_, rfl, ?_, hexEncodeToString_digits _⟩
  · simp [secretResponse, mapGet, secretAreaNidField, secretApiKeField, secretQpsField,
      secretSignedSecretField]
  · rw [hexEncodeToString_length, md5Sum_length]

set_option maxRecDepth 1000000 in
/-- C12 witness: the specification's record (`areaNid` 100, key `k`, secret `s`) at the
second 1700000000 is signed with the MD5 digest of `ks1700000000`, and one second later
with a different digest. -/
theorem pathReadV2Credentials_sig_witness :
    (∃ resp, pathReadV2Credentials md5Sum sampleNow
        { Storage := sampleStorage sampleRec, Secret := none } sampleData =
        Outcome.ret (some resp) none ∧
      mapGet resp.Data secretSignedSecretField =
        Value.string "93e03d2ee15856238b89f2524d19fa96") ∧
    hexEncodeToString (md5Sum (stringBytes ("k" ++ "s" ++ toString (1700000001 : Int)))) =
      "f85d192128c2573d5863ed4c5195930a" := by
  refine ⟨?_, by decide⟩
  obtain ⟨resp, sig, h1, h2, h3, _, _⟩ :=
    pathReadV2Credentials_sig sampleNow { Storage := sampleStorage sampleRec, Secret := none }
      sampleData { Key := "area/test", Value := EntryValue.json sampleRec } sampleRec
      (by decide) rfl (by decide) (by decide)
  have hsig : hexEncodeToString
      (md5Sum (stringBytes (sampleRec.ApiKey ++ sampleRec.KeySecret ++ toString sampleNow.Unix)))
      = "93e03d2ee15856238b89f2524d19fa96" := by decide
  exact ⟨resp, h1, by rw [h2, h3, hsig]⟩

end mashery
